import Mathlib

/-!
Shallow embedding of `draw::DeviceWindow` (device_window.cuh).

The header manages one GL pixel-unpack buffer shared with CUDA
(`cudaGraphicsResource`), a cached pair of field dimensions `Nx_, Ny_`,
and a multiplot grid `I, J` with a running tile index `k`.  We model the
observable state of the window and the trace of buffer / drawing
operations a `draw` call performs.  `unsigned` arithmetic is `Nat` with
an explicit `% U32` wherever the C++ computation can wrap.
-/

namespace DrawModel

/-- `2^32`, the modulus of C++ `unsigned` arithmetic. -/
def U32 : Nat := 2 ^ 32

/-- Observable side effects of the C++ code, in program order.
`unregister r` is `cudaGraphicsUnregisterResource(r)` (with `none` = the
`NULL` handle), `deleteBuf` is `glDeleteBuffers`, `glAlloc n` is
`glGenBuffers`/`glBufferData` for `n` float elements, `register ok` is
`cudaGraphicsGLRegisterBuffer` (failing when `ok = false`, in which case
the error string is printed and `NULL` returned), `mapRes`/`unmapRes` are
`cudaGraphicsMapResources`/`cudaGraphicsUnmapResources`, `transform` is
the `thrust::transform` colormap application, `drawTex` is
`drawTexture` with the quad corners, `setTitle` is `glfwSetWindowTitle`,
and `swap` is `glfwSwapBuffers`. -/
inductive Ev where
  | unregister (r : Option Nat)
  | deleteBuf
  | glAlloc (n : Nat)
  | register (ok : Bool)
  | mapRes
  | transform
  | unmapRes
  | drawTex (x0 x1 y0 y1 : ℚ)
  | setTitle (s : String)
  | swap
deriving DecidableEq, Repr

/-- Result of a `draw` call: `ok` = normal completion, `aborted` = the
`assert` in `mapColors` failed (process abort), `exn` = the element-wise
colormap application threw (the exception propagates, skipping the rest
of the call), `ub` = `mapColors` was entered with a `NULL` resource
(undefined behaviour in the source; we stop modelling at that point). -/
inductive Outcome where
  | ok
  | aborted
  | exn
  | ub
deriving DecidableEq, Repr

/-- State of a `draw::DeviceWindow`:
grid `I, J`, tile index `k`, cached dimensions `NxC, NyC` (`Nx_, Ny_`),
the CUDA registration `resource` (`some cap` = registered buffer of
`cap` float elements, `none` = `NULL`), the GL buffer `glBuf`
(capacity in float elements, `none` before the first allocation),
the accumulated `window_str` title text, and the window title last
applied with `glfwSetWindowTitle`. -/
structure DW where
  I : Nat
  J : Nat
  k : Nat
  NxC : Nat
  NyC : Nat
  resource : Option Nat
  glBuf : Option Nat
  title : String
  winTitle : String
deriving DecidableEq, Repr

/-- `DeviceWindow::DeviceWindow(width, height)`: opens a `width×height`
pixel window (windowing is external), sets `resource = NULL`,
`Nx_ = Ny_ = 0`, `I = J = 1`, `k = 0`.  The arguments size the window
and do not touch the grid or the buffer. -/
def initDW (_width _height : Nat) : DW :=
  { I := 1, J := 1, k := 0, NxC := 0, NyC := 0,
    resource := none, glBuf := none, title := "", winTitle := "" }

/-- `DeviceWindow::set_multiplot(i, j)`: `I = i; J = j; k = 0;`. -/
def set_multiplot (i j : Nat) (s : DW) : DW :=
  { s with I := i, J := j, k := 0 }

/-- `~DeviceWindow()`: unregisters and frees the buffer only when
`resource != NULL`.  Returns the teardown events. -/
def destroyDW (s : DW) : List Ev :=
  if s.resource ≠ none then [Ev.unregister s.resource, Ev.deleteBuf] else []

/-- `mapColors(map, x, resource)` for a registered buffer of `cap` float
elements (so `cudaGraphicsResourceGetMappedPointer` reports
`size = cap * sizeof(float)` bytes):
map the resource, `assert(x.size() == size/3/sizeof(float))`,
apply the colormap with `thrust::transform`, unmap.  `len` is
`x.size()`; `cmapOk = false` models the colormap evaluation throwing. -/
def mapColors (cmapOk : Bool) (len cap : Nat) : List Ev × Outcome :=
  if len = cap * 4 / 3 / 4 then
    if cmapOk then ([Ev.mapRes, Ev.transform, Ev.unmapRes], Outcome.ok)
    else ([Ev.mapRes], Outcome.exn)
  else ([Ev.mapRes], Outcome.aborted)

/-- `i = k/J, j = k%J` and the tile rectangle of `DeviceWindow::draw`:
`x0 = -1 + 2j/J`, `x1 = x0 + 2/J`, `y1 = 1 - 2i/I`, `y0 = y1 - 2/I`. -/
def currentRect (I J k : Nat) : ℚ × ℚ × ℚ × ℚ :=
  let i : Nat := k / J
  let j : Nat := k % J
  let x0 : ℚ := -1 + 2 * (j : ℚ) / (J : ℚ)
  let x1 : ℚ := x0 + 2 / (J : ℚ)
  let y1 : ℚ := 1 - 2 * (i : ℚ) / (I : ℚ)
  let y0 : ℚ := y1 - 2 / (I : ℚ)
  (x0, x1, y0, y1)

/-- The slit inset applied to the quad corners:
`drawTexture(Nx, Ny, x0 + slit, x1 - slit, y0 + slit, y1 - slit)`. -/
def inset (slit : ℚ) (r : ℚ × ℚ × ℚ × ℚ) : ℚ × ℚ × ℚ × ℚ :=
  (r.1 + slit, r.2.1 - slit, r.2.2.1 + slit, r.2.2.2 - slit)

/-- `float slit = 2./500.`. -/
def slitC : ℚ := 2 / 500

/-- Lines 207-220 of `DeviceWindow::draw`: `if (Nx != Nx_ || Ny != Ny_)`
overwrite `Nx_`/`Ny_`, unregister the current resource (even when it is
`NULL`), delete the bound GL buffer, allocate a new buffer of `3*Nx*Ny`
float elements with `allocateCudaGlBuffer` and register it (`resource`
becomes `NULL` when registration fails). -/
def reallocPhase (allocOk : Bool) (Nx Ny : Nat) (s : DW) : DW × List Ev :=
  if Nx = s.NxC ∧ Ny = s.NyC then (s, [])
  else
    ({ s with NxC := Nx, NyC := Ny,
              resource := if allocOk then some (3 * Nx * Ny % U32) else none,
              glBuf := some (3 * Nx * Ny % U32) },
     [Ev.unregister s.resource, Ev.deleteBuf,
      Ev.glAlloc (3 * Nx * Ny % U32), Ev.register allocOk])

/-- The `drawTexture` call of line 233: the slit-inset tile rectangle
of the current grid position. -/
def tileEv (s1 : DW) : Ev :=
  let rc := inset slitC (currentRect s1.I s1.J s1.k)
  Ev.drawTex rc.1 rc.2.1 rc.2.2.1 rc.2.2.2

/-- Lines 229-245 of `DeviceWindow::draw`: `drawTexture` on the
slit-inset tile rectangle, then the grid-complete check `k == I*J - 1`
(`unsigned` arithmetic): on completion apply and clear the accumulated
title, swap the buffers and reset `k` to `0`; otherwise `k++`. -/
def gridPhase (s1 : DW) (ev : List Ev) : DW × List Ev × Outcome :=
  if s1.k = (s1.I * s1.J % U32 + (U32 - 1)) % U32 then
    ({ s1 with winTitle := s1.title, title := "", k := 0 },
     ev ++ [tileEv s1] ++ [Ev.setTitle s1.title, Ev.swap], Outcome.ok)
  else
    ({ s1 with k := (s1.k + 1) % U32 }, ev ++ [tileEv s1], Outcome.ok)

/-- `DeviceWindow::draw(x, Nx, Ny, map)` (lines 204-246).
`len` is `x.size()`; `allocOk` models whether
`cudaGraphicsGLRegisterBuffer` succeeds; `cmapOk` models whether the
colormap evaluation succeeds.  Returns the new state, the event trace
and the outcome.  Order as in the source: dimension check and
reallocation first, then `mapColors` (entering it with a `NULL`
resource is undefined behaviour and ends the model), then the drawing
and grid advance of `gridPhase`. -/
def drawM (allocOk cmapOk : Bool) (len Nx Ny : Nat) (s : DW) :
    DW × List Ev × Outcome :=
  let p := reallocPhase allocOk Nx Ny s
  match p.1.resource with
  | none => (p.1, p.2 ++ [Ev.mapRes], Outcome.ub)
  | some c =>
    let m := mapColors cmapOk len c
    if m.2 = Outcome.ok then gridPhase p.1 (p.2 ++ m.1)
    else (p.1, p.2 ++ m.1, m.2)

/-- An event touching the buffer's allocation or registration. -/
def isBufOp : Ev → Bool
  | Ev.unregister _ => true
  | Ev.deleteBuf => true
  | Ev.glAlloc _ => true
  | Ev.register _ => true
  | _ => false

/-- Consistency of the cached dimensions with the registered capacity:
the registration, when live, is for the GL buffer of
`3 * Nx_ * Ny_` float elements. -/
def WF (s : DW) : Prop :=
  s.resource = none ∨
    (s.resource = some (3 * s.NxC * s.NyC % U32) ∧ s.glBuf = s.resource)

instance (s : DW) : Decidable (WF s) := by
  unfold WF
  infer_instance

/-- Closed-rectangle membership for a `(x0, x1, y0, y1)` tuple. -/
def memRect (r : ℚ × ℚ × ℚ × ℚ) (x y : ℚ) : Prop :=
  r.1 ≤ x ∧ x ≤ r.2.1 ∧ r.2.2.1 ≤ y ∧ y ≤ r.2.2.2

/-- Open-rectangle (interior) membership. -/
def memRectOpen (r : ℚ × ℚ × ℚ × ℚ) (x y : ℚ) : Prop :=
  r.1 < x ∧ x < r.2.1 ∧ r.2.2.1 < y ∧ y < r.2.2.2

/-- The public operations mutating a `DeviceWindow`. -/
inductive Op where
  | multiplot (i j : Nat)
  | render (allocOk cmapOk : Bool) (len Nx Ny : Nat)

/-- Effect of one operation on the window state. -/
def stepOp (s : DW) : Op → DW
  | Op.multiplot i j => set_multiplot i j s
  | Op.render allocOk cmapOk len Nx Ny => (drawM allocOk cmapOk len Nx Ny s).1

/-- State after a sequence of operations on a freshly constructed
window. -/
def runOps (w h : Nat) (ops : List Op) : DW :=
  ops.foldl stepOp (initDW w h)

/-- A `set_multiplot` call with a genuine grid: at least one row and one
column, and a tile count below `2^32`. -/
def goodOp : Op → Prop
  | Op.multiplot i j => 1 ≤ i ∧ 1 ≤ j ∧ i * j < U32
  | Op.render _ _ _ _ _ => True

/-- The grid-state invariant: `0 ≤ k < I*J` (with the tile count in
`unsigned` range). -/
def gridInv (s : DW) : Prop := s.k < s.I * s.J ∧ s.I * s.J < U32

/-! ### Structural lemmas about the phases of `draw` -/

theorem U32_eq : U32 = 4294967296 := by norm_num [U32]

theorem reallocPhase_grid (allocOk : Bool) (Nx Ny : Nat) (s : DW) :
    (reallocPhase allocOk Nx Ny s).1.I = s.I ∧
    (reallocPhase allocOk Nx Ny s).1.J = s.J ∧
    (reallocPhase allocOk Nx Ny s).1.k = s.k ∧
    (reallocPhase allocOk Nx Ny s).1.title = s.title ∧
    (reallocPhase allocOk Nx Ny s).1.winTitle = s.winTitle := by
  unfold reallocPhase
  split <;> exact ⟨rfl, rfl, rfl, rfl, rfl⟩

theorem reallocPhase_fst (allocOk : Bool) (Nx Ny : Nat) (s : DW) :
    (reallocPhase allocOk Nx Ny s).1 =
      if Nx = s.NxC ∧ Ny = s.NyC then s
      else
        { s with NxC := Nx, NyC := Ny,
                 resource := if allocOk then some (3 * Nx * Ny % U32) else none,
                 glBuf := some (3 * Nx * Ny % U32) } := by
  unfold reallocPhase
  split <;> simp_all

theorem reallocPhase_snd (allocOk : Bool) (Nx Ny : Nat) (s : DW) :
    (reallocPhase allocOk Nx Ny s).2 =
      if Nx = s.NxC ∧ Ny = s.NyC then []
      else [Ev.unregister s.resource, Ev.deleteBuf,
            Ev.glAlloc (3 * Nx * Ny % U32), Ev.register allocOk] := by
  unfold reallocPhase
  split <;> simp_all

theorem mapColors_cases (cmapOk : Bool) (len cap : Nat) :
    (len = cap * 4 / 3 / 4 ∧ cmapOk = true ∧
       mapColors cmapOk len cap =
         ([Ev.mapRes, Ev.transform, Ev.unmapRes], Outcome.ok)) ∨
    (len = cap * 4 / 3 / 4 ∧ cmapOk = false ∧
       mapColors cmapOk len cap = ([Ev.mapRes], Outcome.exn)) ∨
    (len ≠ cap * 4 / 3 / 4 ∧
       mapColors cmapOk len cap = ([Ev.mapRes], Outcome.aborted)) := by
  unfold mapColors
  by_cases h : len = cap * 4 / 3 / 4
  · cases cmapOk <;> simp [h]
  · simp [h]

theorem gridPhase_shape (s1 : DW) (ev : List Ev) :
    (s1.k = (s1.I * s1.J % U32 + (U32 - 1)) % U32 ∧
      gridPhase s1 ev =
        ({ s1 with winTitle := s1.title, title := "", k := 0 },
         ev ++ [tileEv s1] ++ [Ev.setTitle s1.title, Ev.swap],
         Outcome.ok)) ∨
    (s1.k ≠ (s1.I * s1.J % U32 + (U32 - 1)) % U32 ∧
      gridPhase s1 ev =
        ({ s1 with k := (s1.k + 1) % U32 }, ev ++ [tileEv s1],
         Outcome.ok)) := by
  unfold gridPhase
  split_ifs with h
  · exact Or.inl ⟨h, rfl⟩
  · exact Or.inr ⟨h, rfl⟩

theorem drawM_shape (allocOk cmapOk : Bool) (len Nx Ny : Nat) (s : DW) :
    ((reallocPhase allocOk Nx Ny s).1.resource = none ∧
      drawM allocOk cmapOk len Nx Ny s =
        ((reallocPhase allocOk Nx Ny s).1,
         (reallocPhase allocOk Nx Ny s).2 ++ [Ev.mapRes], Outcome.ub)) ∨
    (∃ c, (reallocPhase allocOk Nx Ny s).1.resource = some c ∧
      (((mapColors cmapOk len c).2 = Outcome.ok ∧
         drawM allocOk cmapOk len Nx Ny s =
           gridPhase (reallocPhase allocOk Nx Ny s).1
             ((reallocPhase allocOk Nx Ny s).2 ++
              (mapColors cmapOk len c).1)) ∨
       ((mapColors cmapOk len c).2 ≠ Outcome.ok ∧
         drawM allocOk cmapOk len Nx Ny s =
           ((reallocPhase allocOk Nx Ny s).1,
            (reallocPhase allocOk Nx Ny s).2 ++ (mapColors cmapOk len c).1,
            (mapColors cmapOk len c).2)))) := by
  rcases hres : (reallocPhase allocOk Nx Ny s).1.resource with _ | c
  · refine Or.inl ⟨rfl, ?_⟩
    simp only [drawM]
    rw [hres]
  · refine Or.inr ⟨c, rfl, ?_⟩
    by_cases hm : (mapColors cmapOk len c).2 = Outcome.ok
    · refine Or.inl ⟨hm, ?_⟩
      simp only [drawM]
      rw [hres]
      simp [hm]
    · refine Or.inr ⟨hm, ?_⟩
      simp only [drawM]
      rw [hres]
      simp [hm]

theorem wrap_pred (n : Nat) (h1 : 1 ≤ n) (h2 : n < U32) :
    (n % U32 + (U32 - 1)) % U32 = n - 1 := by
  rw [U32_eq] at h2 ⊢
  omega

theorem mapColors_events_cases (cmapOk : Bool) (len cap : Nat) :
    (mapColors cmapOk len cap).1 = [Ev.mapRes, Ev.transform, Ev.unmapRes] ∨
    (mapColors cmapOk len cap).1 = [Ev.mapRes] := by
  rcases mapColors_cases cmapOk len cap with ⟨_, _, h⟩ | ⟨_, _, h⟩ | ⟨_, h⟩ <;>
    rw [h] <;> simp

theorem gridPhase_fst_fields (s1 : DW) (ev : List Ev) :
    (gridPhase s1 ev).1.resource = s1.resource ∧
    (gridPhase s1 ev).1.glBuf = s1.glBuf ∧
    (gridPhase s1 ev).1.NxC = s1.NxC ∧
    (gridPhase s1 ev).1.NyC = s1.NyC ∧
    (gridPhase s1 ev).1.I = s1.I ∧
    (gridPhase s1 ev).1.J = s1.J := by
  rcases gridPhase_shape s1 ev with ⟨_, hg⟩ | ⟨_, hg⟩ <;> rw [hg] <;>
    exact ⟨rfl, rfl, rfl, rfl, rfl, rfl⟩

theorem drawM_fst_fields (allocOk cmapOk : Bool) (len Nx Ny : Nat) (s : DW) :
    (drawM allocOk cmapOk len Nx Ny s).1.resource =
        (reallocPhase allocOk Nx Ny s).1.resource ∧
    (drawM allocOk cmapOk len Nx Ny s).1.glBuf =
        (reallocPhase allocOk Nx Ny s).1.glBuf ∧
    (drawM allocOk cmapOk len Nx Ny s).1.NxC =
        (reallocPhase allocOk Nx Ny s).1.NxC ∧
    (drawM allocOk cmapOk len Nx Ny s).1.NyC =
        (reallocPhase allocOk Nx Ny s).1.NyC ∧
    (drawM allocOk cmapOk len Nx Ny s).1.I = s.I ∧
    (drawM allocOk cmapOk len Nx Ny s).1.J = s.J := by
  rcases drawM_shape allocOk cmapOk len Nx Ny s with
    ⟨_, hd⟩ | ⟨c, _, ⟨_, hd⟩ | ⟨_, hd⟩⟩
  · rw [hd]
    exact ⟨rfl, rfl, rfl, rfl, (reallocPhase_grid _ _ _ _).1,
      (reallocPhase_grid _ _ _ _).2.1⟩
  · rw [hd]
    have hg := gridPhase_fst_fields (reallocPhase allocOk Nx Ny s).1
      ((reallocPhase allocOk Nx Ny s).2 ++ (mapColors cmapOk len c).1)
    exact ⟨hg.1, hg.2.1, hg.2.2.1, hg.2.2.2.1,
      hg.2.2.2.2.1.trans (reallocPhase_grid _ _ _ _).1,
      hg.2.2.2.2.2.trans (reallocPhase_grid _ _ _ _).2.1⟩
  · rw [hd]
    exact ⟨rfl, rfl, rfl, rfl, (reallocPhase_grid _ _ _ _).1,
      (reallocPhase_grid _ _ _ _).2.1⟩

theorem drawM_k_cases (allocOk cmapOk : Bool) (len Nx Ny : Nat) (s : DW) :
    (drawM allocOk cmapOk len Nx Ny s).1.k = s.k ∨
    ((drawM allocOk cmapOk len Nx Ny s).1.k = 0 ∧
      s.k = (s.I * s.J % U32 + (U32 - 1)) % U32) ∨
    ((drawM allocOk cmapOk len Nx Ny s).1.k = (s.k + 1) % U32 ∧
      s.k ≠ (s.I * s.J % U32 + (U32 - 1)) % U32) := by
  have hg := reallocPhase_grid allocOk Nx Ny s
  rcases drawM_shape allocOk cmapOk len Nx Ny s with
    ⟨_, hd⟩ | ⟨c, _, ⟨_, hd⟩ | ⟨_, hd⟩⟩
  · rw [hd]; exact Or.inl hg.2.2.1
  · rcases gridPhase_shape (reallocPhase allocOk Nx Ny s).1
        ((reallocPhase allocOk Nx Ny s).2 ++ (mapColors cmapOk len c).1) with
      ⟨hk, hgr⟩ | ⟨hk, hgr⟩
    · rw [hd, hgr]
      refine Or.inr (Or.inl ⟨rfl, ?_⟩)
      rw [hg.1, hg.2.1, hg.2.2.1] at hk
      exact hk
    · rw [hd, hgr]
      refine Or.inr (Or.inr ⟨?_, ?_⟩)
      · show ((reallocPhase allocOk Nx Ny s).1.k + 1) % U32 = (s.k + 1) % U32
        rw [hg.2.2.1]
      · rw [hg.1, hg.2.1, hg.2.2.1] at hk
        exact hk
  · rw [hd]; exact Or.inl hg.2.2.1

theorem capCheck (m : Nat) : 3 * m * 4 / 3 / 4 = m := by omega

theorem mapColors_not_bufOp (cmapOk : Bool) (len cap : Nat) :
    ∀ e ∈ (mapColors cmapOk len cap).1, isBufOp e = false := by
  intro e he
  rcases mapColors_events_cases cmapOk len cap with hm | hm <;>
    rw [hm] at he <;> simp at he
  · rcases he with rfl | rfl | rfl <;> rfl
  · subst he; rfl

theorem reallocPhase_bufOps (allocOk : Bool) (Nx Ny : Nat) (s : DW) :
    ∀ e ∈ (reallocPhase allocOk Nx Ny s).2, isBufOp e = true := by
  intro e he
  rw [reallocPhase_snd] at he
  by_cases hdim : Nx = s.NxC ∧ Ny = s.NyC <;> simp [hdim] at he
  rcases he with rfl | rfl | rfl | rfl <;> rfl

theorem tileEv_not_bufOp (s1 : DW) : isBufOp (tileEv s1) = false := rfl

theorem drawM_events_prefix (allocOk cmapOk : Bool) (len Nx Ny : Nat)
    (s : DW) :
    ∃ tl, (drawM allocOk cmapOk len Nx Ny s).2.1 =
        (reallocPhase allocOk Nx Ny s).2 ++ tl ∧
      ∀ e ∈ tl, isBufOp e = false := by
  rcases drawM_shape allocOk cmapOk len Nx Ny s with
    ⟨_, hd⟩ | ⟨c, _, ⟨_, hd⟩ | ⟨_, hd⟩⟩
  · refine ⟨[Ev.mapRes], by rw [hd], ?_⟩
    intro e he
    simp at he
    subst he
    rfl
  · rcases gridPhase_shape (reallocPhase allocOk Nx Ny s).1
        ((reallocPhase allocOk Nx Ny s).2 ++ (mapColors cmapOk len c).1) with
      ⟨_, hg⟩ | ⟨_, hg⟩
    · refine ⟨(mapColors cmapOk len c).1 ++
        [tileEv (reallocPhase allocOk Nx Ny s).1,
         Ev.setTitle (reallocPhase allocOk Nx Ny s).1.title, Ev.swap],
        ?_, ?_⟩
      · rw [hd, hg]; simp
      · intro e he
        simp at he
        rcases he with he | rfl | rfl | rfl
        · exact mapColors_not_bufOp cmapOk len c e he
        · exact tileEv_not_bufOp _
        · rfl
        · rfl
    · refine ⟨(mapColors cmapOk len c).1 ++
        [tileEv (reallocPhase allocOk Nx Ny s).1], ?_, ?_⟩
      · rw [hd, hg]; simp
      · intro e he
        simp at he
        rcases he with he | rfl
        · exact mapColors_not_bufOp cmapOk len c e he
        · exact tileEv_not_bufOp _
  · refine ⟨(mapColors cmapOk len c).1, by rw [hd], ?_⟩
    exact mapColors_not_bufOp cmapOk len c

theorem memRect_inset_iff (slit : ℚ) (I J k : Nat) (x y : ℚ) :
    memRect (inset slit (currentRect I J k)) x y ↔
      ((-1 + 2 * ((k % J : Nat) : ℚ) / (J : ℚ)) + slit ≤ x ∧
       x ≤ ((-1 + 2 * ((k % J : Nat) : ℚ) / (J : ℚ)) + 2 / (J : ℚ)) - slit ∧
       ((1 - 2 * ((k / J : Nat) : ℚ) / (I : ℚ)) - 2 / (I : ℚ)) + slit ≤ y ∧
       y ≤ (1 - 2 * ((k / J : Nat) : ℚ) / (I : ℚ)) - slit) := Iff.rfl

theorem memRectOpen_inset_iff (slit : ℚ) (I J k : Nat) (x y : ℚ) :
    memRectOpen (inset slit (currentRect I J k)) x y ↔
      ((-1 + 2 * ((k % J : Nat) : ℚ) / (J : ℚ)) + slit < x ∧
       x < ((-1 + 2 * ((k % J : Nat) : ℚ) / (J : ℚ)) + 2 / (J : ℚ)) - slit ∧
       ((1 - 2 * ((k / J : Nat) : ℚ) / (I : ℚ)) - 2 / (I : ℚ)) + slit < y ∧
       y < (1 - 2 * ((k / J : Nat) : ℚ) / (I : ℚ)) - slit) := Iff.rfl

theorem cover1D (J : Nat) (hJ : 1 ≤ J) (x : ℚ) (hx0 : -1 ≤ x)
    (hx1 : x ≤ 1) :
    ∃ j < J, -1 + 2 * ((j : Nat) : ℚ) / (J : ℚ) ≤ x ∧
      x ≤ -1 + 2 * (((j : Nat) : ℚ) + 1) / (J : ℚ) := by
  have hJQ : (0 : ℚ) < (J : ℚ) := by exact_mod_cast hJ
  have ht0 : (0 : ℚ) ≤ (x + 1) * (J : ℚ) / 2 := by
    apply div_nonneg _ (by norm_num)
    exact mul_nonneg (by linarith) (le_of_lt hJQ)
  have hn0 : 0 ≤ ⌊(x + 1) * (J : ℚ) / 2⌋ := Int.floor_nonneg.2 ht0
  have hA : ((⌊(x + 1) * (J : ℚ) / 2⌋ : ℤ) : ℚ) ≤ (x + 1) * (J : ℚ) / 2 :=
    Int.floor_le _
  have hB : (x + 1) * (J : ℚ) / 2 < ((⌊(x + 1) * (J : ℚ) / 2⌋ : ℤ) : ℚ) + 1 :=
    Int.lt_floor_add_one _
  have hA' : 2 * ((⌊(x + 1) * (J : ℚ) / 2⌋ : ℤ) : ℚ) ≤ (x + 1) * (J : ℚ) := by
    rw [le_div_iff₀ (by norm_num : (0:ℚ) < 2)] at hA
    linarith
  have hB' : (x + 1) * (J : ℚ) <
      2 * (((⌊(x + 1) * (J : ℚ) / 2⌋ : ℤ) : ℚ) + 1) := by
    rw [div_lt_iff₀ (by norm_num : (0:ℚ) < 2)] at hB
    linarith
  by_cases hcase : ⌊(x + 1) * (J : ℚ) / 2⌋ < (J : ℤ)
  · refine ⟨(⌊(x + 1) * (J : ℚ) / 2⌋).toNat, by omega, ?_, ?_⟩
    · have hcast : (((⌊(x + 1) * (J : ℚ) / 2⌋).toNat : ℕ) : ℚ) =
          ((⌊(x + 1) * (J : ℚ) / 2⌋ : ℤ) : ℚ) := by
        exact_mod_cast Int.toNat_of_nonneg hn0
      rw [hcast]
      have hdiv : 2 * ((⌊(x + 1) * (J : ℚ) / 2⌋ : ℤ) : ℚ) / (J : ℚ) ≤
          x + 1 := by
        rw [div_le_iff₀ hJQ]
        linarith
      linarith
    · have hcast : (((⌊(x + 1) * (J : ℚ) / 2⌋).toNat : ℕ) : ℚ) =
          ((⌊(x + 1) * (J : ℚ) / 2⌋ : ℤ) : ℚ) := by
        exact_mod_cast Int.toNat_of_nonneg hn0
      rw [hcast]
      have hdiv : x + 1 ≤
          2 * (((⌊(x + 1) * (J : ℚ) / 2⌋ : ℤ) : ℚ) + 1) / (J : ℚ) := by
        rw [le_div_iff₀ hJQ]
        linarith
      linarith
  · have hJn : ((J : ℕ) : ℚ) ≤ ((⌊(x + 1) * (J : ℚ) / 2⌋ : ℤ) : ℚ) := by
      exact_mod_cast le_of_not_lt hcase
    have h2J : 2 * ((J : ℕ) : ℚ) ≤ (x + 1) * (J : ℚ) := by linarith
    have hx1' : 1 ≤ x := by nlinarith [h2J, hJQ]
    have hc : (((J - 1 : ℕ)) : ℚ) = (J : ℚ) - 1 := by
      rw [Nat.cast_sub hJ, Nat.cast_one]
    refine ⟨J - 1, by omega, ?_, ?_⟩
    · rw [hc]
      have hm : 2 * ((J : ℚ) - 1) / (J : ℚ) ≤ 2 := by
        rw [div_le_iff₀ hJQ]
        linarith
      linarith
    · rw [hc]
      have h2 : ((J : ℚ) - 1) + 1 = (J : ℚ) := by ring
      rw [h2]
      have hm : 2 * (J : ℚ) / (J : ℚ) = 2 := by
        field_simp
      rw [hm]
      linarith

theorem sep1D_closed (D m m' : Nat) (hmm' : m < m') (hD : (0:ℚ) < (D : ℚ))
    (slit x : ℚ) (hs : 0 < slit)
    (hx : x ≤ (-1 + 2 * (((m : Nat) : ℚ) + 1) / (D : ℚ)) - slit)
    (hx' : (-1 + 2 * ((m' : Nat) : ℚ) / (D : ℚ)) + slit ≤ x) : False := by
  have hcast : ((m : ℚ) + 1) ≤ ((m' : Nat) : ℚ) := by exact_mod_cast hmm'
  have hmono : 2 * (((m : Nat) : ℚ) + 1) / (D : ℚ) ≤
      2 * ((m' : Nat) : ℚ) / (D : ℚ) :=
    (div_le_div_iff_of_pos_right hD).2 (by linarith)
  linarith

theorem sep1D_open (D m m' : Nat) (hmm' : m < m') (hD : (0:ℚ) < (D : ℚ))
    (x : ℚ)
    (hx : x < -1 + 2 * (((m : Nat) : ℚ) + 1) / (D : ℚ))
    (hx' : -1 + 2 * ((m' : Nat) : ℚ) / (D : ℚ) < x) : False := by
  have hcast : ((m : ℚ) + 1) ≤ ((m' : Nat) : ℚ) := by exact_mod_cast hmm'
  have hmono : 2 * (((m : Nat) : ℚ) + 1) / (D : ℚ) ≤
      2 * ((m' : Nat) : ℚ) / (D : ℚ) :=
    (div_le_div_iff_of_pos_right hD).2 (by linarith)
  linarith

theorem tile_index_split (J k k' : Nat) (hne : k ≠ k')
    (hj : k % J = k' % J) : k / J ≠ k' / J := by
  intro hEq
  apply hne
  rw [← Nat.div_add_mod k J, ← Nat.div_add_mod k' J, hj, hEq]

/-! ### Claim theorems -/

/-- C1: a `draw` call performs buffer operations (unregister, free,
allocate, register) if and only if the requested `(Nx, Ny)` differs
from the cached `(Nx_, Ny_)`; in that case the old registration and GL
buffer are destroyed and a buffer of `3*Nx*Ny` elements is allocated
and registered, in that order; a repeated call with unchanged
dimensions performs no buffer operation; and after every call that
completes normally the registered buffer holds exactly `3*Nx*Ny` float
elements (one RGB triple per field cell). -/
theorem realloc_iff_dims_change (allocOk cmapOk : Bool) (len Nx Ny : Nat)
    (s : DW) (hwf : WF s) :
    ((∃ e ∈ (drawM allocOk cmapOk len Nx Ny s).2.1, isBufOp e = true) ↔
       ¬(Nx = s.NxC ∧ Ny = s.NyC)) ∧
    (¬(Nx = s.NxC ∧ Ny = s.NyC) →
       List.take 4 (drawM allocOk cmapOk len Nx Ny s).2.1 =
         [Ev.unregister s.resource, Ev.deleteBuf,
          Ev.glAlloc (3 * Nx * Ny % U32), Ev.register allocOk]) ∧
    ((drawM allocOk cmapOk len Nx Ny s).2.2 = Outcome.ok →
       3 * Nx * Ny < U32 →
       (drawM allocOk cmapOk len Nx Ny s).1.resource = some (3 * Nx * Ny) ∧
       (drawM allocOk cmapOk len Nx Ny s).1.glBuf = some (3 * Nx * Ny)) := by
  obtain ⟨tl, htl, htlb⟩ := drawM_events_prefix allocOk cmapOk len Nx Ny s
  refine ⟨⟨?_, ?_⟩, ?_, ?_⟩
  · rintro ⟨e, he, hb⟩ hdim
    rw [htl, reallocPhase_snd, if_pos hdim] at he
    simp at he
    rw [htlb e he] at hb
    cases hb
  · intro hdim
    refine ⟨Ev.register allocOk, ?_, rfl⟩
    rw [htl, reallocPhase_snd, if_neg hdim]
    simp
  · intro hdim
    rw [htl, reallocPhase_snd, if_neg hdim]
    simp
  · intro hok hlt
    have hff := drawM_fst_fields allocOk cmapOk len Nx Ny s
    rcases drawM_shape allocOk cmapOk len Nx Ny s with
      ⟨_, hd⟩ | ⟨c, hc, ⟨_, _⟩ | ⟨hm, hd⟩⟩
    · rw [hd] at hok; cases hok
    · rw [hff.1, hff.2.1, reallocPhase_fst]
      rw [reallocPhase_fst] at hc
      by_cases hdim : Nx = s.NxC ∧ Ny = s.NyC
      · rw [if_pos hdim] at hc ⊢
        rcases hwf with hnone | ⟨hcap, hgl⟩
        · rw [hnone] at hc; cases hc
        · have hmod : 3 * s.NxC * s.NyC % U32 = 3 * Nx * Ny := by
            rw [← hdim.1, ← hdim.2]
            exact Nat.mod_eq_of_lt hlt
          constructor
          · rw [hcap, hmod]
          · rw [hgl, hcap, hmod]
      · rw [if_neg hdim] at hc ⊢
        cases allocOk
        · simp at hc
        · simp only [if_pos] at hc ⊢
          rw [Nat.mod_eq_of_lt hlt]
          exact ⟨rfl, rfl⟩
    · rw [hd] at hok
      exact absurd hok hm

/-- C1 witness for `realloc_iff_dims_change`: fresh window, first 2×2
draw reallocates and leaves a 12-element buffer. -/
theorem realloc_iff_dims_change_witness :
    ¬(2 = (initDW 400 400).NxC ∧ 2 = (initDW 400 400).NyC) ∧
    (drawM true true 4 2 2 (initDW 400 400)).1.resource = some (3 * 2 * 2) ∧
    (∃ e ∈ (drawM true true 4 2 2 (initDW 400 400)).2.1, isBufOp e = true) := by
  have h := realloc_iff_dims_change true true 4 2 2 (initDW 400 400)
    (by decide)
  refine ⟨by decide, ((h.2.2 (by decide) (by decide))).1, ?_⟩
  exact h.1.2 (by decide)

/-- C2: every rectangle handed to `drawTexture` by a `draw` call is the
tile rectangle `i = k/J`, `j = k%J`, `x0 = -1 + 2j/J`, `x1 = x0 + 2/J`,
`y1 = 1 - 2i/I`, `y0 = y1 - 2/I`, with each of the four edges inset by
the fixed slit `2/500` (`x0`, `y0` increased, `x1`, `y1` decreased). -/
theorem tile_rect_formula (allocOk cmapOk : Bool) (len Nx Ny : Nat) (s : DW)
    (a b c d : ℚ)
    (hmem : Ev.drawTex a b c d ∈ (drawM allocOk cmapOk len Nx Ny s).2.1) :
    a = (-1 + 2 * ((s.k % s.J : Nat) : ℚ) / (s.J : ℚ)) + 2 / 500 ∧
    b = ((-1 + 2 * ((s.k % s.J : Nat) : ℚ) / (s.J : ℚ)) + 2 / (s.J : ℚ))
          - 2 / 500 ∧
    c = ((1 - 2 * ((s.k / s.J : Nat) : ℚ) / (s.I : ℚ)) - 2 / (s.I : ℚ))
          + 2 / 500 ∧
    d = (1 - 2 * ((s.k / s.J : Nat) : ℚ) / (s.I : ℚ)) - 2 / 500 := by
  have hre : Ev.drawTex a b c d ∉ (reallocPhase allocOk Nx Ny s).2 := by
    intro hmem'
    simpa [isBufOp] using reallocPhase_bufOps allocOk Nx Ny s _ hmem'
  have hmc : ∀ cap, Ev.drawTex a b c d ∉ (mapColors cmapOk len cap).1 := by
    intro cap hmem'
    rcases mapColors_events_cases cmapOk len cap with hm | hm <;>
      rw [hm] at hmem' <;> simp at hmem'
  have htile : tileEv (reallocPhase allocOk Nx Ny s).1 =
      Ev.drawTex ((-1 + 2 * ((s.k % s.J : Nat) : ℚ) / (s.J : ℚ)) + 2 / 500)
        (((-1 + 2 * ((s.k % s.J : Nat) : ℚ) / (s.J : ℚ)) + 2 / (s.J : ℚ))
          - 2 / 500)
        (((1 - 2 * ((s.k / s.J : Nat) : ℚ) / (s.I : ℚ)) - 2 / (s.I : ℚ))
          + 2 / 500)
        ((1 - 2 * ((s.k / s.J : Nat) : ℚ) / (s.I : ℚ)) - 2 / 500) := by
    have hg := reallocPhase_grid allocOk Nx Ny s
    simp only [tileEv, inset, currentRect, slitC, hg.1, hg.2.1, hg.2.2.1]
  rcases drawM_shape allocOk cmapOk len Nx Ny s with
    ⟨_, hd⟩ | ⟨cc, _, ⟨_, hd⟩ | ⟨_, hd⟩⟩
  · rw [hd] at hmem
    simp at hmem
    exact absurd hmem hre
  · rcases gridPhase_shape (reallocPhase allocOk Nx Ny s).1
        ((reallocPhase allocOk Nx Ny s).2 ++ (mapColors cmapOk len cc).1) with
      ⟨_, hg⟩ | ⟨_, hg⟩ <;> rw [hd, hg] at hmem <;> simp at hmem <;>
      rcases hmem with hmem | hmem | heq
    · exact absurd hmem hre
    · exact absurd hmem (hmc cc)
    · rw [htile] at heq
      injection heq with h1 h2 h3 h4
      exact ⟨h1, h2, h3, h4⟩
    · exact absurd hmem hre
    · exact absurd hmem (hmc cc)
    · rw [htile] at heq
      injection heq with h1 h2 h3 h4
      exact ⟨h1, h2, h3, h4⟩
  · rw [hd] at hmem
    simp at hmem
    rcases hmem with hmem | hmem
    · exact absurd hmem hre
    · exact absurd hmem (hmc cc)

/-- C2 witness for `tile_rect_formula`: 2×3 grid, tile `k = 0` drawn at
the inset top-left rectangle. -/
theorem tile_rect_formula_witness :
    ((-249 / 250 : ℚ) =
      (-1 + 2 * ((0 % 3 : Nat) : ℚ) / ((3 : Nat) : ℚ)) + 2 / 500) ∧
    ((-253 / 750 : ℚ) =
      ((-1 + 2 * ((0 % 3 : Nat) : ℚ) / ((3 : Nat) : ℚ)) + 2 / ((3 : Nat) : ℚ))
        - 2 / 500) := by
  have h := tile_rect_formula true true 4 2 2
    (set_multiplot 2 3 (initDW 400 400)) (-249 / 250) (-253 / 750) (1 / 250)
    (249 / 250)
    (by norm_num [drawM, reallocPhase, mapColors, gridPhase, tileEv, inset,
          currentRect, slitC, set_multiplot, initDW, U32])
  exact ⟨h.1, h.2.1⟩

/-- C3: on a successful `draw` the tile index is a cyclic counter:
it becomes `k + 1` unless `k = I*J - 1`, in which case the buffers are
swapped, the accumulated title is applied to the window and cleared,
and the index returns to `0`; no swap happens before the grid is
complete. -/
theorem tile_advance (allocOk cmapOk : Bool) (len Nx Ny : Nat) (s : DW)
    (hok : (drawM allocOk cmapOk len Nx Ny s).2.2 = Outcome.ok)
    (hIJ : 1 ≤ s.I * s.J) (hU : s.I * s.J < U32) (hk : s.k < s.I * s.J) :
    (s.k ≠ s.I * s.J - 1 →
       (drawM allocOk cmapOk len Nx Ny s).1.k = s.k + 1 ∧
       Ev.swap ∉ (drawM allocOk cmapOk len Nx Ny s).2.1 ∧
       (drawM allocOk cmapOk len Nx Ny s).1.title = s.title ∧
       (drawM allocOk cmapOk len Nx Ny s).1.winTitle = s.winTitle) ∧
    (s.k = s.I * s.J - 1 →
       (drawM allocOk cmapOk len Nx Ny s).1.k = 0 ∧
       Ev.swap ∈ (drawM allocOk cmapOk len Nx Ny s).2.1 ∧
       Ev.setTitle s.title ∈ (drawM allocOk cmapOk len Nx Ny s).2.1 ∧
       (drawM allocOk cmapOk len Nx Ny s).1.title = "" ∧
       (drawM allocOk cmapOk len Nx Ny s).1.winTitle = s.title) := by
  have hg := reallocPhase_grid allocOk Nx Ny s
  have hwrap : ((reallocPhase allocOk Nx Ny s).1.I *
      (reallocPhase allocOk Nx Ny s).1.J % U32 + (U32 - 1)) % U32 =
        s.I * s.J - 1 := by
    rw [hg.1, hg.2.1]
    exact wrap_pred (s.I * s.J) hIJ hU
  have hswre : Ev.swap ∉ (reallocPhase allocOk Nx Ny s).2 := by
    intro hmem
    simpa [isBufOp] using reallocPhase_bufOps allocOk Nx Ny s _ hmem
  have hswmc : ∀ cap, Ev.swap ∉ (mapColors cmapOk len cap).1 := by
    intro cap hmem
    rcases mapColors_events_cases cmapOk len cap with hm | hm <;>
      rw [hm] at hmem <;> simp at hmem
  rcases drawM_shape allocOk cmapOk len Nx Ny s with
    ⟨_, hd⟩ | ⟨c, _, ⟨hm, hd⟩ | ⟨hm, hd⟩⟩
  · rw [hd] at hok; cases hok
  · rcases gridPhase_shape (reallocPhase allocOk Nx Ny s).1
        ((reallocPhase allocOk Nx Ny s).2 ++ (mapColors cmapOk len c).1) with
      ⟨hcond, hgr⟩ | ⟨hcond, hgr⟩
    · rw [hwrap, hg.2.2.1] at hcond
      constructor
      · intro hne; exact absurd hcond hne
      · intro _
        rw [hd, hgr]
        refine ⟨rfl, ?_, ?_, rfl, hg.2.2.2.1⟩
        · simp
        · simp [hg.2.2.2.1]
    · rw [hwrap, hg.2.2.1] at hcond
      constructor
      · intro _
        rw [hd, hgr]
        refine ⟨?_, ?_, hg.2.2.2.1, hg.2.2.2.2⟩
        · show ((reallocPhase allocOk Nx Ny s).1.k + 1) % U32 = s.k + 1
          rw [hg.2.2.1]
          exact Nat.mod_eq_of_lt
            (lt_of_le_of_lt (Nat.succ_le_of_lt hk) hU)
        · intro hmem
          simp at hmem
          rcases hmem with hmem | hmem | heq
          · exact hswre hmem
          · exact hswmc c hmem
          · rw [tileEv] at heq
            cases heq
      · intro heq; exact absurd heq hcond
  · rw [hd] at hok
    exact absurd hok hm

/-- C3 witness for `tile_advance`: `set_multiplot(1,2)` then two draws
from `k = 0`: first gives (no present, `k = 1`), second gives (present,
`k = 0`). -/
theorem tile_advance_witness :
    ((drawM true true 4 2 2 (set_multiplot 1 2 (initDW 400 400))).1.k = 1 ∧
     Ev.swap ∉
       (drawM true true 4 2 2 (set_multiplot 1 2 (initDW 400 400))).2.1) ∧
    ((drawM true true 4 2 2 ((drawM true true 4 2 2
        (set_multiplot 1 2 (initDW 400 400))).1)).1.k = 0 ∧
     Ev.swap ∈ (drawM true true 4 2 2 ((drawM true true 4 2 2
        (set_multiplot 1 2 (initDW 400 400))).1)).2.1) := by
  have h1 := tile_advance true true 4 2 2
    (set_multiplot 1 2 (initDW 400 400)) (by decide) (by decide) (by decide)
    (by decide)
  have h2 := tile_advance true true 4 2 2
    ((drawM true true 4 2 2 (set_multiplot 1 2 (initDW 400 400))).1)
    (by decide) (by decide) (by decide) (by decide)
  exact ⟨⟨(h1.1 (by decide)).1, (h1.1 (by decide)).2.1⟩,
    ⟨(h2.2 (by decide)).1, (h2.2 (by decide)).2.1⟩⟩

theorem gridInv_drawM (allocOk cmapOk : Bool) (len Nx Ny : Nat) (s : DW)
    (h : gridInv s) : gridInv (drawM allocOk cmapOk len Nx Ny s).1 := by
  obtain ⟨h1, h2⟩ := h
  have hff := drawM_fst_fields allocOk cmapOk len Nx Ny s
  have hpos : 1 ≤ s.I * s.J := Nat.one_le_iff_ne_zero.2 (by
    intro h0
    rw [h0] at h1
    exact Nat.not_lt_zero _ h1)
  refine ⟨?_, ?_⟩
  · rw [hff.2.2.2.2.1, hff.2.2.2.2.2]
    rcases drawM_k_cases allocOk cmapOk len Nx Ny s with
      hk | ⟨hk, _⟩ | ⟨hk, hne⟩
    · rw [hk]; exact h1
    · rw [hk]; exact Nat.lt_of_lt_of_le Nat.zero_lt_one hpos
    · rw [wrap_pred (s.I * s.J) hpos h2] at hne
      rw [hk]
      have hlt : s.k + 1 < s.I * s.J := by omega
      rw [Nat.mod_eq_of_lt (lt_trans hlt h2)]
      exact hlt
  · rw [hff.2.2.2.2.1, hff.2.2.2.2.2]
    exact h2

/-- C10: the grid-state invariant `0 ≤ k < I*J` holds after
construction and is preserved by every operation: `set_multiplot`
resets `k` to `0` unconditionally, and every `draw` either leaves `k`,
increments it, or wraps it to `0` at grid completion, so after any
sequence of well-formed operations on a fresh window the invariant
holds. -/
theorem grid_invariant (w h : Nat) (ops : List Op)
    (hgood : ∀ o ∈ ops, goodOp o) :
    (∀ i j s, (set_multiplot i j s).k = 0) ∧ gridInv (runOps w h ops) := by
  refine ⟨fun i j s => rfl, ?_⟩
  have base : gridInv (initDW w h) := by
    constructor
    · exact Nat.zero_lt_one
    · rw [U32_eq]; norm_num [initDW]
  have H : ∀ (l : List Op) (s : DW), (∀ o ∈ l, goodOp o) → gridInv s →
      gridInv (l.foldl stepOp s) := by
    intro l
    induction l with
    | nil => intro s _ hs; exact hs
    | cons o rest ih =>
      intro s hg hs
      simp only [List.foldl_cons]
      apply ih _ (fun o' ho' => hg o' (List.mem_cons_of_mem _ ho'))
      cases o with
      | multiplot i j =>
        have hgo := hg _ (List.mem_cons_self _ _)
        refine ⟨?_, hgo.2.2⟩
        show (set_multiplot i j s).k < i * j
        have : (set_multiplot i j s).k = 0 := rfl
        rw [this]
        exact Nat.mul_pos hgo.1 hgo.2.1
      | render allocOk cmapOk len nx ny =>
        exact gridInv_drawM allocOk cmapOk len nx ny s hs
  exact H ops (initDW w h) hgood base

/-- C9: for every grid `I, J ≥ 1` the tile rectangles of the viewport
computation exactly tile `[-1,1]×[-1,1]` when the slit margin is zero —
every point of the square lies in some tile with `k < I*J` and tile
interiors are pairwise disjoint — and for every positive slit the
slit-inset rectangles are pairwise disjoint. -/
theorem tiles_partition (I J : Nat) (hI : 1 ≤ I) (hJ : 1 ≤ J) :
    (∀ x y : ℚ, -1 ≤ x → x ≤ 1 → -1 ≤ y → y ≤ 1 →
       ∃ k < I * J, memRect (inset 0 (currentRect I J k)) x y) ∧
    (∀ k k', k < I * J → k' < I * J → k ≠ k' → ∀ x y : ℚ,
       memRectOpen (inset 0 (currentRect I J k)) x y →
         ¬ memRectOpen (inset 0 (currentRect I J k')) x y) ∧
    (∀ slit : ℚ, 0 < slit → ∀ k k', k < I * J → k' < I * J → k ≠ k' →
       ∀ x y : ℚ, memRect (inset slit (currentRect I J k)) x y →
         ¬ memRect (inset slit (currentRect I J k')) x y) := by
  have hIQ : (0 : ℚ) < (I : ℚ) := by exact_mod_cast hI
  have hJQ : (0 : ℚ) < (J : ℚ) := by exact_mod_cast hJ
  refine ⟨?_, ?_, ?_⟩
  · intro x y hx0 hx1 hy0 hy1
    obtain ⟨j, hjJ, hxl, hxu⟩ := cover1D J hJ x hx0 hx1
    obtain ⟨i, hiI, hyl, hyu⟩ := cover1D I hI (-y) (by linarith) (by linarith)
    refine ⟨j + J * i, ?_, ?_⟩
    · calc j + J * i < J + J * i := by omega
        _ = J * (i + 1) := by ring
        _ ≤ J * I := Nat.mul_le_mul_left J hiI
        _ = I * J := Nat.mul_comm J I
    · rw [memRect_inset_iff, Nat.add_mul_mod_self_left,
        Nat.mod_eq_of_lt hjJ, Nat.add_mul_div_left j i hJ,
        Nat.div_eq_of_lt hjJ, Nat.zero_add]
      have ej : (-1 : ℚ) + 2 * (((j : Nat) : ℚ) + 1) / (J : ℚ) =
          ((-1 + 2 * ((j : Nat) : ℚ) / (J : ℚ)) + 2 / (J : ℚ)) := by ring
      have ei : -(((1 : ℚ) - 2 * ((i : Nat) : ℚ) / (I : ℚ)) - 2 / (I : ℚ)) =
          -1 + 2 * (((i : Nat) : ℚ) + 1) / (I : ℚ) := by ring
      have ei2 : -((1 : ℚ) - 2 * ((i : Nat) : ℚ) / (I : ℚ)) =
          -1 + 2 * ((i : Nat) : ℚ) / (I : ℚ) := by ring
      exact ⟨by linarith, by linarith, by linarith, by linarith⟩
  · intro k k' hk hk' hne x y hm hm'
    rw [memRectOpen_inset_iff] at hm hm'
    by_cases hj : k % J = k' % J
    · have hi := tile_index_split J k k' hne hj
      rcases Nat.lt_trichotomy (k / J) (k' / J) with hii | hii | hii
      · refine sep1D_open I (k / J) (k' / J) hii hIQ (-y) ?_ ?_
        · have e : -(((1 : ℚ) - 2 * ((k / J : Nat) : ℚ) / (I : ℚ))
              - 2 / (I : ℚ)) =
              -1 + 2 * (((k / J : Nat) : ℚ) + 1) / (I : ℚ) := by ring
          linarith [hm.2.2.1]
        · have e : -((1 : ℚ) - 2 * ((k' / J : Nat) : ℚ) / (I : ℚ)) =
              -1 + 2 * ((k' / J : Nat) : ℚ) / (I : ℚ) := by ring
          linarith [hm'.2.2.2]
      · exact absurd hii hi
      · refine sep1D_open I (k' / J) (k / J) hii hIQ (-y) ?_ ?_
        · have e : -(((1 : ℚ) - 2 * ((k' / J : Nat) : ℚ) / (I : ℚ))
              - 2 / (I : ℚ)) =
              -1 + 2 * (((k' / J : Nat) : ℚ) + 1) / (I : ℚ) := by ring
          linarith [hm'.2.2.1]
        · have e : -((1 : ℚ) - 2 * ((k / J : Nat) : ℚ) / (I : ℚ)) =
              -1 + 2 * ((k / J : Nat) : ℚ) / (I : ℚ) := by ring
          linarith [hm.2.2.2]
    · rcases Nat.lt_trichotomy (k % J) (k' % J) with hjj | hjj | hjj
      · refine sep1D_open J (k % J) (k' % J) hjj hJQ x ?_ ?_
        · have e : ((-1 : ℚ) + 2 * ((k % J : Nat) : ℚ) / (J : ℚ))
              + 2 / (J : ℚ) =
              -1 + 2 * (((k % J : Nat) : ℚ) + 1) / (J : ℚ) := by ring
          linarith [hm.2.1]
        · linarith [hm'.1]
      · exact absurd hjj hj
      · refine sep1D_open J (k' % J) (k % J) hjj hJQ x ?_ ?_
        · have e : ((-1 : ℚ) + 2 * ((k' % J : Nat) : ℚ) / (J : ℚ))
              + 2 / (J : ℚ) =
              -1 + 2 * (((k' % J : Nat) : ℚ) + 1) / (J : ℚ) := by ring
          linarith [hm'.2.1]
        · linarith [hm.1]
  · intro slit hs k k' hk hk' hne x y hm hm'
    rw [memRect_inset_iff] at hm hm'
    by_cases hj : k % J = k' % J
    · have hi := tile_index_split J k k' hne hj
      rcases Nat.lt_trichotomy (k / J) (k' / J) with hii | hii | hii
      · refine sep1D_closed I (k / J) (k' / J) hii hIQ slit (-y) hs ?_ ?_
        · have e : -(((1 : ℚ) - 2 * ((k / J : Nat) : ℚ) / (I : ℚ))
              - 2 / (I : ℚ)) =
              -1 + 2 * (((k / J : Nat) : ℚ) + 1) / (I : ℚ) := by ring
          linarith [hm.2.2.1]
        · have e : -((1 : ℚ) - 2 * ((k' / J : Nat) : ℚ) / (I : ℚ)) =
              -1 + 2 * ((k' / J : Nat) : ℚ) / (I : ℚ) := by ring
          linarith [hm'.2.2.2]
      · exact absurd hii hi
      · refine sep1D_closed I (k' / J) (k / J) hii hIQ slit (-y) hs ?_ ?_
        · have e : -(((1 : ℚ) - 2 * ((k' / J : Nat) : ℚ) / (I : ℚ))
              - 2 / (I : ℚ)) =
              -1 + 2 * (((k' / J : Nat) : ℚ) + 1) / (I : ℚ) := by ring
          linarith [hm'.2.2.1]
        · have e : -((1 : ℚ) - 2 * ((k / J : Nat) : ℚ) / (I : ℚ)) =
              -1 + 2 * ((k / J : Nat) : ℚ) / (I : ℚ) := by ring
          linarith [hm.2.2.2]
    · rcases Nat.lt_trichotomy (k % J) (k' % J) with hjj | hjj | hjj
      · refine sep1D_closed J (k % J) (k' % J) hjj hJQ slit x hs ?_ ?_
        · have e : ((-1 : ℚ) + 2 * ((k % J : Nat) : ℚ) / (J : ℚ))
              + 2 / (J : ℚ) =
              -1 + 2 * (((k % J : Nat) : ℚ) + 1) / (J : ℚ) := by ring
          linarith [hm.2.1]
        · linarith [hm'.1]
      · exact absurd hjj hj
      · refine sep1D_closed J (k' % J) (k % J) hjj hJQ slit x hs ?_ ?_
        · have e : ((-1 : ℚ) + 2 * ((k' % J : Nat) : ℚ) / (J : ℚ))
              + 2 / (J : ℚ) =
              -1 + 2 * (((k' % J : Nat) : ℚ) + 1) / (J : ℚ) := by ring
          linarith [hm'.2.1]
        · linarith [hm.1]

/-- C9 witness for `tiles_partition`: on a 1×2 grid the origin lies in
one of the two zero-slit tiles. -/
theorem tiles_partition_witness :
    ∃ k < 1 * 2, memRect (inset 0 (currentRect 1 2 k)) 0 0 :=
  (tiles_partition 1 2 (by norm_num) (by norm_num)).1 0 0 (by norm_num)
    (by norm_num) (by norm_num) (by norm_num)

/-- C10 witness for `grid_invariant`: a concrete trace with a 2×3 grid
and one draw. -/
theorem grid_invariant_witness :
    gridInv (runOps 400 400 [Op.multiplot 2 3, Op.render true true 4 2 2]) :=
  (grid_invariant 400 400 [Op.multiplot 2 3, Op.render true true 4 2 2]
    (by intro o ho
        simp at ho
        rcases ho with rfl | rfl
        · exact ⟨by norm_num, by norm_num, by rw [U32_eq]; norm_num⟩
        · exact trivial)).2

/-- C4 (counterexample): drawing a field of length 5 with requested
dimensions 2×2 on a fresh window aborts on the size assert, but the
buffer state is NOT left unchanged: the cached dimensions and the
registration have already been replaced by the reallocation that runs
before the length check. -/
theorem length_mismatch_cex :
    (drawM true true 5 2 2 (initDW 400 400)).2.2 = Outcome.aborted ∧
    (drawM true true 5 2 2 (initDW 400 400)).1.NxC ≠ (initDW 400 400).NxC ∧
    (drawM true true 5 2 2 (initDW 400 400)).1.resource ≠
      (initDW 400 400).resource ∧
    (∃ e ∈ (drawM true true 5 2 2 (initDW 400 400)).2.1, isBufOp e = true) := by
  decide

/-- C4 (amended): when the buffer is usable after the (possible)
reallocation, a `draw` call whose field length differs from
`Nx*Ny` fails the `assert` in `mapColors` and aborts: nothing is drawn,
no present happens and the tile index does not advance — but the
reallocation triggered by a dimension change has already taken effect. -/
theorem length_mismatch_aborts (allocOk cmapOk : Bool) (len Nx Ny : Nat)
    (s : DW) (hwf : WF s) (hlen : len ≠ Nx * Ny) (hcap : 3 * Nx * Ny < U32)
    (hres : Nx = s.NxC ∧ Ny = s.NyC → s.resource ≠ none)
    (halloc : ¬(Nx = s.NxC ∧ Ny = s.NyC) → allocOk = true) :
    (drawM allocOk cmapOk len Nx Ny s).2.2 = Outcome.aborted ∧
    (drawM allocOk cmapOk len Nx Ny s).1.k = s.k ∧
    (∀ a b c d, Ev.drawTex a b c d ∉ (drawM allocOk cmapOk len Nx Ny s).2.1) ∧
    Ev.swap ∉ (drawM allocOk cmapOk len Nx Ny s).2.1 := by
  have hmod : 3 * Nx * Ny % U32 = 3 * Nx * Ny := Nat.mod_eq_of_lt hcap
  have hsome : (reallocPhase allocOk Nx Ny s).1.resource =
      some (3 * Nx * Ny) := by
    rw [reallocPhase_fst]
    by_cases hdim : Nx = s.NxC ∧ Ny = s.NyC
    · simp only [if_pos hdim]
      rcases hwf with hnone | ⟨hcapr, _⟩
      · exact absurd hnone (hres hdim)
      · rw [hcapr, ← hdim.1, ← hdim.2, hmod]
    · simp only [if_neg hdim, halloc hdim, if_pos, hmod]
  have hchk : ¬ (len = 3 * Nx * Ny * 4 / 3 / 4) := by
    have : 3 * Nx * Ny * 4 / 3 / 4 = Nx * Ny := by
      have := capCheck (Nx * Ny)
      calc 3 * Nx * Ny * 4 / 3 / 4 = 3 * (Nx * Ny) * 4 / 3 / 4 := by
            ring_nf
        _ = Nx * Ny := capCheck (Nx * Ny)
    rw [this]; exact hlen
  have hmc : mapColors cmapOk len (3 * Nx * Ny) =
      ([Ev.mapRes], Outcome.aborted) := by
    rcases mapColors_cases cmapOk len (3 * Nx * Ny) with
      ⟨h1, _, _⟩ | ⟨h1, _, _⟩ | ⟨_, h3⟩
    · exact absurd h1 hchk
    · exact absurd h1 hchk
    · exact h3
  rcases drawM_shape allocOk cmapOk len Nx Ny s with
    ⟨hnone, _⟩ | ⟨c, hc, ⟨hm, _⟩ | ⟨_, hd⟩⟩
  · rw [hsome] at hnone; cases hnone
  · rw [hsome] at hc
    have hceq : c = 3 * Nx * Ny := by injection hc.symm
    rw [hceq, hmc] at hm
    cases hm
  · rw [hsome] at hc
    have hceq : c = 3 * Nx * Ny := by injection hc.symm
    rw [hceq, hmc] at hd
    rw [hd]
    refine ⟨rfl, (reallocPhase_grid _ _ _ _).2.2.1, ?_, ?_⟩
    · intro a b c' d hmem
      rw [reallocPhase_snd] at hmem
      by_cases hdim : Nx = s.NxC ∧ Ny = s.NyC <;>
        simp [hdim] at hmem
    · intro hmem
      rw [reallocPhase_snd] at hmem
      by_cases hdim : Nx = s.NxC ∧ Ny = s.NyC <;>
        simp [hdim] at hmem

/-- C4 witness for `length_mismatch_aborts`: a 2×3 window state holding
a registered 2×2 buffer, drawn with a field of length 5. -/
theorem length_mismatch_aborts_witness :
    (drawM true true 5 2 2 ((drawM true true 4 2 2
        (set_multiplot 2 3 (initDW 400 400))).1)).2.2 = Outcome.aborted ∧
    (drawM true true 5 2 2 ((drawM true true 4 2 2
        (set_multiplot 2 3 (initDW 400 400))).1)).1.k =
      ((drawM true true 4 2 2 (set_multiplot 2 3 (initDW 400 400))).1).k := by
  have h := length_mismatch_aborts true true 5 2 2
    ((drawM true true 4 2 2 (set_multiplot 2 3 (initDW 400 400))).1)
    (by decide) (by decide) (by decide) (by decide) (by decide)
  exact ⟨h.1, h.2.1⟩

/-- C5 (counterexample and amended behaviour): with registration
failing, a first `draw` with new 2×2 dimensions caches the dimensions,
prints the error and leaves `resource = NULL`; the next `draw` with the
same dimensions performs no buffer operation at all — the allocation is
NOT retried. -/
theorem alloc_failure_no_retry_cex :
    Ev.register false ∈ (drawM false true 4 2 2 (initDW 400 400)).2.1 ∧
    (drawM false true 4 2 2 (initDW 400 400)).1.resource = none ∧
    (∀ e ∈ (drawM true true 4 2 2
        ((drawM false true 4 2 2 (initDW 400 400)).1)).2.1,
      isBufOp e = false) := by
  decide

/-- C5 (amended): when `cudaGraphicsGLRegisterBuffer` fails on a
dimension change, the failed call makes exactly one allocation attempt
(no retry within the call), leaves the surface without a usable
registration and ends in the undefined `mapColors(NULL)` path; because
the new dimensions were cached before the failure, the next `draw` call
with the same dimensions performs no reallocation whatsoever — even
though registration would now succeed — and hits `mapColors(NULL)`
again. -/
theorem alloc_failure_no_retry (cmapOk cmapOk' : Bool) (len len' Nx Ny : Nat)
    (s : DW) (hdim : ¬(Nx = s.NxC ∧ Ny = s.NyC)) :
    drawM false cmapOk len Nx Ny s =
      ({ s with NxC := Nx, NyC := Ny, resource := none,
                glBuf := some (3 * Nx * Ny % U32) },
       [Ev.unregister s.resource, Ev.deleteBuf,
        Ev.glAlloc (3 * Nx * Ny % U32), Ev.register false, Ev.mapRes],
       Outcome.ub) ∧
    (∀ allocOk, drawM allocOk cmapOk' len' Nx Ny
        { s with NxC := Nx, NyC := Ny, resource := none,
                 glBuf := some (3 * Nx * Ny % U32) } =
      ({ s with NxC := Nx, NyC := Ny, resource := none,
                glBuf := some (3 * Nx * Ny % U32) },
       [Ev.mapRes], Outcome.ub)) := by
  constructor
  · simp [drawM, reallocPhase, hdim]
  · intro allocOk
    simp [drawM, reallocPhase]

/-- C5 witness for `alloc_failure_no_retry`: concrete fresh window and
2×2 request. -/
theorem alloc_failure_no_retry_witness :
    (drawM false true 4 2 2 (initDW 400 400)).2.2 = Outcome.ub ∧
    drawM true true 4 2 2 ((drawM false true 4 2 2 (initDW 400 400)).1) =
      ((drawM false true 4 2 2 (initDW 400 400)).1,
       [Ev.mapRes], Outcome.ub) := by
  have h := alloc_failure_no_retry true true 4 4 2 2 (initDW 400 400)
    (by decide)
  refine ⟨by rw [h.1], ?_⟩
  rw [h.1]
  exact h.2 true

/-- C6 (counterexample): in `mapColors`, when the colormap evaluation
fails after the resource was mapped (here on a correctly sized 2×2
buffer of 12 floats), the function exits without unmapping: the buffer
stays owned by the compute domain. -/
theorem map_release_cex :
    (mapColors false 4 12).2 = Outcome.exn ∧
    Ev.mapRes ∈ (mapColors false 4 12).1 ∧
    Ev.unmapRes ∉ (mapColors false 4 12).1 := by
  decide

/-- C6 (amended): `mapColors` releases compute-domain access
(`cudaGraphicsUnmapResources`) exactly on the fully successful path —
the size assert must hold and the colormap evaluation must succeed; on
the assert-failure and colormap-failure exit paths the buffer is left
mapped. -/
theorem map_release_iff (cmapOk : Bool) (len cap : Nat) :
    Ev.unmapRes ∈ (mapColors cmapOk len cap).1 ↔
      len = cap * 4 / 3 / 4 ∧ cmapOk = true := by
  rcases mapColors_cases cmapOk len cap with
    ⟨h1, h2, h3⟩ | ⟨h1, h2, h3⟩ | ⟨h1, h3⟩
  · rw [h3]; simp [h1, h2]
  · rw [h3]; simp [h1, h2]
  · rw [h3]; simp [h1]

/-- C7 (code evaluated at the failing input): on the very first `draw`
after construction no buffer or registration exists (`resource` is
`NULL`), yet the reallocation step still calls
`cudaGraphicsUnregisterResource(NULL)` and `glDeleteBuffers` before
allocating — while the destructor correctly guards the same teardown
with `resource != NULL` and does nothing on a fresh window. -/
theorem first_draw_unregisters_null :
    (initDW 400 400).resource = none ∧
    Ev.unregister none ∈ (drawM true true 10000 100 100 (initDW 400 400)).2.1 ∧
    Ev.deleteBuf ∈ (drawM true true 10000 100 100 (initDW 400 400)).2.1 ∧
    destroyDW (initDW 400 400) = [] := by
  decide

/-- C8 (counterexample): the constructor arguments are the window's
pixel size, not the grid: `DeviceWindow(2, 3)` does not initialize a
2×3 tile grid. -/
theorem ctor_grid_cex :
    ¬ ((initDW 2 3).I = 2 ∧ (initDW 2 3).J = 3) := by
  decide

/-- C8 (amended): construction initializes the grid to 1×1 regardless
of its (pixel-size) arguments, allocates no shared buffer and no
registration, and the buffer and registration are created lazily by the
first `draw` call (whose dimensions always differ from the initial
cached pair `(0,0)` for a nonempty field). -/
theorem ctor_lazy_alloc (w h : Nat) :
    (initDW w h).I = 1 ∧ (initDW w h).J = 1 ∧ (initDW w h).k = 0 ∧
    (initDW w h).resource = none ∧ (initDW w h).glBuf = none ∧
    (∀ allocOk cmapOk len Nx Ny, ¬(Nx = 0 ∧ Ny = 0) →
      Ev.glAlloc (3 * Nx * Ny % U32) ∈
          (drawM allocOk cmapOk len Nx Ny (initDW w h)).2.1 ∧
      Ev.register allocOk ∈
          (drawM allocOk cmapOk len Nx Ny (initDW w h)).2.1) := by
  refine ⟨rfl, rfl, rfl, rfl, rfl, ?_⟩
  intro allocOk cmapOk len Nx Ny hNz
  have hsnd : (reallocPhase allocOk Nx Ny (initDW w h)).2 =
      [Ev.unregister none, Ev.deleteBuf,
       Ev.glAlloc (3 * Nx * Ny % U32), Ev.register allocOk] := by
    rw [reallocPhase_snd]
    simp only [initDW]
    rw [if_neg hNz]
  rcases drawM_shape allocOk cmapOk len Nx Ny (initDW w h) with
    ⟨_, hd⟩ | ⟨c, _, ⟨_, hd⟩ | ⟨_, hd⟩⟩
  · rw [hd, hsnd]; constructor <;> simp
  · rw [hd]
    rcases gridPhase_shape (reallocPhase allocOk Nx Ny (initDW w h)).1
        ((reallocPhase allocOk Nx Ny (initDW w h)).2 ++
         (mapColors cmapOk len c).1) with ⟨_, hg⟩ | ⟨_, hg⟩ <;>
      rw [hg] <;> rw [hsnd] <;> constructor <;> simp
  · rw [hd, hsnd]; constructor <;> simp

/-- C8 witness for `ctor_lazy_alloc`: fresh 400×400 window, first draw
with a 100×100 field allocates and registers. -/
theorem ctor_lazy_alloc_witness :
    (initDW 400 400).resource = none ∧
    Ev.glAlloc (3 * 100 * 100 % U32) ∈
      (drawM true true 10000 100 100 (initDW 400 400)).2.1 := by
  refine ⟨(ctor_lazy_alloc 400 400).2.2.2.1, ?_⟩
  exact ((ctor_lazy_alloc 400 400).2.2.2.2.2 true true 10000 100 100
    (by decide)).1

end DrawModel
